import Mathlib

/-!
Shallow embedding of `cryptoriums/flashbot` (`flashbot.go`), a client for
Flashbots-compatible MEV relays.  Pure data and control flow are translated
directly; the effectful HTTP round trip is modelled by passing an explicit
`transport` function and returning, next to the result, the list of HTTP
requests actually issued (the trace).  External library primitives
(keccak256, `accounts.TextHash`, secp256k1 signing) are abstracted as fields
of a `CryptoOps` record, since the claims under verification only concern
how their results are threaded, not their internals.
-/

namespace Flashbot

/-- JSON values, the wire model for relay response bodies.  Numbers are
modelled as integers (all numeric fields of the Go structs are `int` or
`uint64`). -/
inductive Json where
  | null
  | bool (b : Bool)
  | num (n : Int)
  | str (s : String)
  | arr (xs : List Json)
  | obj (fields : List (String × Json))
deriving Repr

/-- ASCII case folding of one character (to its lowercase code point). -/
def asciiFold (c : Char) : Nat :=
  if 65 ≤ c.toNat ∧ c.toNat ≤ 90 then c.toNat + 32 else c.toNat

/-- ASCII case-insensitive string equality, as `encoding/json` uses to match
JSON keys against struct field names. -/
def eqFold (a b : String) : Bool :=
  a.data.map asciiFold == b.data.map asciiFold

/-- `encoding/json` field lookup: exact key match first, then a
case-insensitive match. -/
def jLookup (fields : List (String × Json)) (key : String) : Option Json :=
  match fields.find? (fun kv => kv.1 == key) with
  | some kv => some kv.2
  | none => (fields.find? (fun kv => eqFold kv.1 key)).map (fun kv => kv.2)

/-- Go `type Error struct { Code int; Message string }`. -/
structure Error where
  code : Int := 0
  message : String := ""
deriving Repr, DecidableEq

/-- Go `type Metadata struct { CoinbaseDiff, EthSentToCoinbase, GasFees string }`. -/
structure Metadata where
  coinbaseDiff : String := ""
  ethSentToCoinbase : String := ""
  gasFees : String := ""
deriving Repr, DecidableEq

/-- Go `type TxResult struct`: per-transaction result inside a relay
response, with `Error`/`Revert` diagnostic strings and `GasUsed uint64`. -/
structure TxResult where
  metadata : Metadata := {}
  fromAddress : String := ""
  gasPrice : String := ""
  txHash : String := ""
  error : String := ""
  revert : String := ""
  gasUsed : Nat := 0
deriving Repr, DecidableEq

/-- Go `type Result struct`: the object success shape of a relay response. -/
structure Result where
  bundleGasPrice : String := ""
  bundleHash : String := ""
  metadata : Metadata := {}
  results : List TxResult := []
deriving Repr, DecidableEq

/-- Go `type Response struct { Error `json:"error"`; Result `json:"result"` }`. -/
structure Response where
  error : Error := {}
  result : Result := {}
deriving Repr, DecidableEq

/-- Unmarshal a JSON value sitting under a string-typed struct field.
Absent and `null` keep the zero value; a non-string value is a type error,
as in `encoding/json`. -/
def decodeStringField (fields : List (String × Json)) (key : String) :
    Except String String :=
  match jLookup fields key with
  | none => .ok ""
  | some .null => .ok ""
  | some (.str s) => .ok s
  | some _ => .error ("cannot unmarshal into string field " ++ key)

/-- Unmarshal a JSON value under an `int`-typed struct field. -/
def decodeIntField (fields : List (String × Json)) (key : String) :
    Except String Int :=
  match jLookup fields key with
  | none => .ok 0
  | some .null => .ok 0
  | some (.num n) => .ok n
  | some _ => .error ("cannot unmarshal into int field " ++ key)

/-- Unmarshal a JSON value under a `uint64`-typed struct field (negative
numbers are a type error, as in `encoding/json`). -/
def decodeNatField (fields : List (String × Json)) (key : String) :
    Except String Nat :=
  match jLookup fields key with
  | none => .ok 0
  | some .null => .ok 0
  | some (.num n) => if n < 0 then .error ("negative value for uint64 field " ++ key) else .ok n.toNat
  | some _ => .error ("cannot unmarshal into uint64 field " ++ key)

/-- Unmarshal the `Error` struct (keys matched case-insensitively, so both
`Code`/`Message` and `code`/`message` bind). -/
def decodeError (j : Json) : Except String Error :=
  match j with
  | .null => .ok {}
  | .obj fields => do
    let code ← decodeIntField fields "Code"
    let message ← decodeStringField fields "Message"
    .ok { code, message }
  | _ => .error "cannot unmarshal into Error"

/-- Unmarshal one `TxResult` (embedded `Metadata` fields are promoted to the
top level, as for an untagged embedded struct in Go). -/
def decodeTxResult (j : Json) : Except String TxResult :=
  match j with
  | .null => .ok {}
  | .obj fields => do
    let coinbaseDiff ← decodeStringField fields "CoinbaseDiff"
    let ethSentToCoinbase ← decodeStringField fields "EthSentToCoinbase"
    let gasFees ← decodeStringField fields "GasFees"
    let fromAddress ← decodeStringField fields "FromAddress"
    let gasPrice ← decodeStringField fields "GasPrice"
    let txHash ← decodeStringField fields "TxHash"
    let error ← decodeStringField fields "Error"
    let revert ← decodeStringField fields "Revert"
    let gasUsed ← decodeNatField fields "GasUsed"
    .ok { metadata := { coinbaseDiff, ethSentToCoinbase, gasFees },
          fromAddress, gasPrice, txHash, error, revert, gasUsed }
  | _ => .error "cannot unmarshal into TxResult"

/-- Unmarshal the `Result` struct.  A non-object, non-null value (e.g. the
bare boolean some relays return for `eth_sendBundle`) is a type error. -/
def decodeResult (j : Json) : Except String Result :=
  match j with
  | .null => .ok {}
  | .obj fields => do
    let bundleGasPrice ← decodeStringField fields "BundleGasPrice"
    let bundleHash ← decodeStringField fields "BundleHash"
    let coinbaseDiff ← decodeStringField fields "CoinbaseDiff"
    let ethSentToCoinbase ← decodeStringField fields "EthSentToCoinbase"
    let gasFees ← decodeStringField fields "GasFees"
    let results ←
      match jLookup fields "Results" with
      | none => .ok []
      | some .null => .ok []
      | some (.arr xs) => xs.mapM decodeTxResult
      | some _ => .error "cannot unmarshal into Results"
    .ok { bundleGasPrice, bundleHash,
          metadata := { coinbaseDiff, ethSentToCoinbase, gasFees }, results }
  | _ => .error "cannot unmarshal into Result"

/-- Unmarshal the `Response` envelope: JSON-tagged embedded fields `error`
and `result`. -/
def decodeResponse (j : Json) : Except String Response :=
  match j with
  | .null => .ok {}
  | .obj fields => do
    let error ←
      match jLookup fields "error" with
      | none => .ok ({} : Error)
      | some e => decodeError e
    let result ←
      match jLookup fields "result" with
      | none => .ok ({} : Result)
      | some r => decodeResult r
    .ok { error, result }
  | _ => .error "cannot unmarshal into Response"

/-- A raw relay response body: the raw bytes (kept as a string, as Go keeps
`resp []byte`) together with the outcome of JSON parsing — either the body
is not well-formed JSON, or it parses to a `Json` value.  `json.Unmarshal`'s
two failure modes (syntax error, type mismatch) are thus both represented. -/
inductive RespBody where
  | malformed (raw : String)
  | wellFormed (raw : String) (j : Json)
deriving Repr

/-- The raw bytes of a response body. -/
def RespBody.raw : RespBody → String
  | .malformed r => r
  | .wellFormed r _ => r

/-- `json.Unmarshal(resp, rr)` for the `Response` type. -/
def decodeBody : RespBody → Except String Response
  | .malformed _ => .error "invalid character in JSON"
  | .wellFormed _ j => decodeResponse j

/-- The two failure classes `parseResp` can produce: a decode failure
(`errors.Wrapf(err, "unmarshal flashbot response:%v", string(resp))`,
carrying the raw body) and a relay-level failure (`errors.New(errStr)`). -/
inductive ParseError where
  | decodeErr (raw : String)
  | relayErr (msg : String)
deriving Repr, DecidableEq

/-- The error-branch condition of `parseResp`:
`rr.Error.Code != 0 || (len(rr.Result.Results) > 0 && rr.Result.Results[0].Error != "")`. -/
def relayFails (rr : Response) : Bool :=
  rr.error.code != 0 ||
    (match rr.result.results with
     | [] => false
     | t :: _ => t.error != "")

/-- The relay-failure message built by `parseResp`:
`fmt.Sprintf("flashbot request returned an error:%+v,%v block:%v", rr.Error, rr.Message, blockNum)`
plus, when per-transaction results are present, the first result's
`Error`/`Revert`/`GasUsed` fields.  (`%+v` of `Error` prints
`\x7bCode:<code> Message:<message>\x7d`.)  Appends are grouped to the right. -/
def mkRelayErrBase (rr : Response) (blockNum : Nat) : String :=
  "flashbot request returned an error:\x7bCode:" ++
    (toString rr.error.code ++ (" Message:" ++ (rr.error.message ++
      ("\x7d," ++ (rr.error.message ++ (" block:" ++ toString blockNum))))))

/-- The suffix appended to the relay-failure message when per-transaction
results are present: the first result's `Error`, `Revert` and `GasUsed`. -/
def mkRelayErrStr (rr : Response) (blockNum : Nat) : String :=
  match rr.result.results with
  | [] => mkRelayErrBase rr blockNum
  | t :: _ => mkRelayErrBase rr blockNum ++ (" Result:" ++ (t.error ++ (" , Revert:" ++
      (t.revert ++ (", GasUsed:" ++ toString t.gasUsed)))))

/-- Go `parseResp(resp []byte, blockNum uint64) (*Response, error)`:
unmarshal the body into `Response`; on unmarshal failure return a decode
error wrapping the raw body; on a non-zero error code or a non-empty error
string in the first per-transaction result, return a relay error; otherwise
return the decoded response. -/
def parseResp (resp : RespBody) (blockNum : Nat) : Except ParseError Response :=
  match decodeBody resp with
  | .error _ => .error (.decodeErr resp.raw)
  | .ok rr =>
    if relayFails rr then
      .error (.relayErr (mkRelayErrStr rr blockNum))
    else
      .ok rr

/-- Lowercase hex digit for a value `< 16`. -/
def hexChar (n : Nat) : Char :=
  if n < 10 then Char.ofNat (48 + n) else Char.ofNat (87 + n)

/-- `hexutil.Encode`: `0x`-prefixed lowercase hex of a byte slice, two
digits per byte. -/
def hexEncode (bytes : List Nat) : String :=
  "0x" ++ String.mk (bytes.flatMap (fun b => [hexChar (b / 16 % 16), hexChar (b % 16)]))

/-- `hexutil.EncodeUint64`: `0x`-prefixed minimal lowercase hex of an
integer (`0` encodes as `0x0`). -/
def encodeUint64 (n : Nat) : String :=
  "0x" ++ (if n = 0 then "0" else String.mk (((Nat.digits 16 n).reverse).map hexChar))

/-- The bytes of a string (`[]byte(s)` for the ASCII strings involved). -/
def strBytes (s : String) : List Nat :=
  s.data.map Char.toNat

/-- `common.Address`, represented by its `Hex()` rendering (the
`0x`-prefixed EIP-55 string), which is all the code consumes. -/
structure Address where
  hex : String
deriving Repr, DecidableEq

/-- External go-ethereum crypto primitives used by `signPayload`, abstracted:
`crypto.Keccak256`, `accounts.TextHash` and `crypto.Sign` (the latter takes
the 32-byte digest and the private key, modelled as an opaque scalar, and
returns the 65-byte signature or an error). -/
structure CryptoOps where
  keccak256 : List Nat → List Nat
  textHash : List Nat → List Nat
  sign : List Nat → Nat → Except String (List Nat)

/-- Go `signPayload(payload []byte, prvKey *ecdsa.PrivateKey, pubKey *common.Address)`:
fail when either key half is nil; otherwise sign
`TextHash([]byte(hexutil.Encode(Keccak256(payload))))` and return
`pubKey.Hex() + ":" + hexutil.Encode(signature)`. -/
def signPayload (ops : CryptoOps) (payload : List Nat)
    (prvKey : Option Nat) (pubKey : Option Address) : Except String String :=
  match prvKey, pubKey with
  | some pk, some pub =>
    match ops.sign (ops.textHash (strBytes (hexEncode (ops.keccak256 payload)))) pk with
    | .error e => .error ("sign the payload: " ++ e)
    | .ok signature => .ok (pub.hex ++ (":" ++ hexEncode signature))
  | _, _ => .error "private or public key is not set"

/-- Go `type Api struct`: one relay endpoint descriptor (`CustomHeaders` is
kept as an association list; Go map iteration order is immaterial here). -/
structure Api where
  url : String
  supportsSimulation : Bool := false
  methodCall : String := ""
  methodSend : String := ""
  customHeaders : List (String × String) := []
deriving Repr, DecidableEq

/-- Go `type Params struct` (`blockNumber`, `stateBlockNumber`). -/
structure Params where
  blockNum : String := ""
  stateBlockNum : String := ""
deriving Repr, DecidableEq

/-- Go `type ParamsSendCall struct { Params; Txs []string }`. -/
structure ParamsSendCall where
  params : Params := {}
  txs : List String := []
deriving Repr, DecidableEq

/-- Go `type Tx struct { From, To common.Address; Data []byte }`. -/
structure Tx where
  fromAddr : Address := ⟨""⟩
  toAddr : Address := ⟨""⟩
  data : List Nat := []
deriving Repr, DecidableEq

/-- Go `type ParamsGasEstimate struct { Params; Txs []Tx }`. -/
structure ParamsGasEstimate where
  params : Params := {}
  txs : List Tx := []
deriving Repr, DecidableEq

/-- Go `type ParamsPrivateTransaction struct` (`tx`, `maxBlockNumber`,
`preferences.fast`). -/
structure ParamsPrivateTx where
  tx : String := ""
  maxBlockNumber : String := ""
  fast : Bool := false
deriving Repr, DecidableEq

/-- Go `type ParamsCancelPrivateTransaction struct { TxHash string }`. -/
structure ParamsCancelPrivateTx where
  txHash : String := ""
deriving Repr, DecidableEq

/-- Go `type ParamsBundleStats struct { Params; BundleHash string }`. -/
structure ParamsBundleStats where
  params : Params := {}
  bundleHash : String := ""
deriving Repr, DecidableEq

/-- The params payload of one JSON-RPC request, a tagged union over the
param struct actually passed to `req` (`GetUserStats` passes a bare hex
string). -/
inductive RpcParams where
  | sendCall (p : ParamsSendCall)
  | gasEstimate (p : ParamsGasEstimate)
  | privateTx (p : ParamsPrivateTx)
  | cancelPrivateTx (p : ParamsCancelPrivateTx)
  | bundleStats (p : ParamsBundleStats)
  | blockNumStr (s : String)
deriving Repr, DecidableEq

/-- Go `jsonrpcMessage` as built by `newMessage`: version "2.0", id 1, the
method name and the params. -/
structure RpcMessage where
  version : String := "2.0"
  id : String := "1"
  method : String
  params : RpcParams
deriving Repr, DecidableEq

/-- Rendering of one params value inside the marshalled message.  Stands in
for `json.Marshal` on the param structs; its exact byte-level output is not
load-bearing (only that the payload is a definite function of the message),
so fields are rendered in struct order without string escaping. -/
def renderParams : RpcParams → String
  | .sendCall p =>
    "\x7b\"blockNumber\":\"" ++ (p.params.blockNum ++ ("\",\"stateBlockNumber\":\"" ++
      (p.params.stateBlockNum ++ ("\",\"txs\":[" ++
        (String.intercalate "," (p.txs.map (fun t => "\"" ++ (t ++ "\""))) ++ "]\x7d")))))
  | .gasEstimate p =>
    "\x7b\"blockNumber\":\"" ++ (p.params.blockNum ++ ("\",\"stateBlockNumber\":\"" ++
      (p.params.stateBlockNum ++ ("\",\"txs\":[" ++
        (String.intercalate ","
          (p.txs.map (fun t => "\x7b\"from\":\"" ++ (t.fromAddr.hex ++ ("\",\"to\":\"" ++
            (t.toAddr.hex ++ ("\",\"data\":\"" ++ (hexEncode t.data ++ "\"\x7d"))))))) ++
          "]\x7d")))))
  | .privateTx p =>
    "\x7b\"tx\":\"" ++ (p.tx ++ ("\",\"maxBlockNumber\":\"" ++ (p.maxBlockNumber ++
      ("\",\"preferences\":\x7b\"fast\":" ++
        ((if p.fast then "true" else "false") ++ "\x7d\x7d")))))
  | .cancelPrivateTx p => "\x7b\"txHash\":\"" ++ (p.txHash ++ "\"\x7d")
  | .bundleStats p =>
    "\x7b\"blockNumber\":\"" ++ (p.params.blockNum ++ ("\",\"bundleHash\":\"" ++
      (p.bundleHash ++ "\"\x7d")))
  | .blockNumStr s => "\"" ++ (s ++ "\"")

/-- Rendering of the whole JSON-RPC message, standing in for
`json.Marshal(msg)`; this is the payload that gets signed and POSTed. -/
def marshalMsg (msg : RpcMessage) : String :=
  "\x7b\"jsonrpc\":\"" ++ (msg.version ++ ("\",\"id\":" ++ (msg.id ++
    (",\"method\":\"" ++ (msg.method ++ ("\",\"params\":[" ++
      (renderParams msg.params ++ "]\x7d")))))))

/-- One outbound HTTP request as configured by `Flashbot.req`: URL, verb,
the JSON-RPC message it carries, the headers, and whether the HTTP client
it is sent through skips TLS certificate verification
(`tls.Config{InsecureSkipVerify: true}`). -/
structure HttpRequest where
  url : String
  httpMethod : String
  msg : RpcMessage
  headers : List (String × String)
  tlsInsecureSkipVerify : Bool
deriving Repr

/-- An HTTP response: status code and raw body. -/
structure HttpResponse where
  status : Nat
  body : RespBody
deriving Repr

/-- Outcome of one round trip of the HTTP client (`mevHTTPClient.Do`). -/
inductive TransportResult where
  | networkErr (e : String)
  | response (r : HttpResponse)

/-- The request `Flashbot.req` issues: POST to `api.URL` with content-type,
Accept and `X-Flashbots-Signature` headers plus the endpoint's custom
headers, through a client with `InsecureSkipVerify: true`. -/
def buildHttpReq (api : Api) (msg : RpcMessage) (signedP : String) : HttpRequest :=
  { url := api.url
    httpMethod := "POST"
    msg := msg
    headers := [("content-type", "application/json"),
                ("Accept", "application/json"),
                ("X-Flashbots-Signature", signedP)] ++ api.customHeaders
    tlsInsecureSkipVerify := true }

/-- `httputil.DumpResponse(resp, true)`: status line, blank line, body. -/
def dumpResponse (r : HttpResponse) : String :=
  "HTTP " ++ (toString r.status ++ ("\r\n\r\n" ++ r.body.raw))

/-- `httputil.DumpRequestOut(req, true)`: request line, blank line, body. -/
def dumpRequestOut (r : HttpRequest) : String :=
  r.httpMethod ++ (" " ++ (r.url ++ ("\r\n\r\n" ++ marshalMsg r.msg)))

/-- The non-2xx error message of `Flashbot.req`:
`errors.Errorf("bad response resp respDump:%v reqDump:%v", ...)`. -/
def mkBadStatusStr (resp : HttpResponse) (r : HttpRequest) : String :=
  "bad response resp respDump:" ++ (dumpResponse resp ++ (" reqDump:" ++ dumpRequestOut r))

/-- Failure classes of `Flashbot.req`: signing failure (wrapped
`"signing flashbot request"`), network failure of `Do`, and non-2xx
status. -/
inductive ReqError where
  | signErr (e : String)
  | transportErr (e : String)
  | badStatus (e : String)
deriving Repr

/-- Go `Flashbot.req`: marshal the message, sign the payload (failing
before any network traffic when a key half is missing), build the request
with its headers, perform exactly one round trip through the
`InsecureSkipVerify` client, and classify the outcome; a status outside
2xx (`resp.StatusCode/100 != 2`) yields an error carrying the full
response and request dumps.  The second component is the trace of HTTP
requests actually handed to the client. -/
def req (ops : CryptoOps) (api : Api) (prvKey : Option Nat) (pubKey : Option Address)
    (transport : HttpRequest → TransportResult) (msg : RpcMessage) :
    Except ReqError RespBody × List HttpRequest :=
  match signPayload ops (strBytes (marshalMsg msg)) prvKey pubKey with
  | .error e => (.error (.signErr e), [])
  | .ok signedP =>
    let r := buildHttpReq api msg signedP
    match transport r with
    | .networkErr e => (.error (.transportErr e), [r])
    | .response resp =>
      if resp.status / 100 != 2 then
        (.error (.badStatus (mkBadStatusStr resp r)), [r])
      else
        (.ok resp.body, [r])

/-- Failure classes of the bundle operations: the `CallBundle`
unsupported-simulation precondition, a failed request, or a failed
response parse. -/
inductive FBError where
  | unsupported (e : String)
  | reqFailed (e : ReqError)
  | parseFailed (e : ParseError)
deriving Repr

/-- Response handling shared by `SendBundle`/`CallBundle`/
`EstimateGasBundle`: propagate request errors, else run `parseResp`. -/
def handleBundleResp (out : Except ReqError RespBody) (blockNum : Nat) :
    Except FBError Response :=
  match out with
  | .error e => .error (.reqFailed e)
  | .ok body =>
    match parseResp body blockNum with
    | .error e => .error (.parseFailed e)
    | .ok rr => .ok rr

/-- Go `Flashbot.SendBundle`: method `eth_sendBundle` unless overridden by
`api.MethodSend`; params carry the txs as given, `stateBlockNumber`
"latest" and the hex-encoded target block. -/
def SendBundle (ops : CryptoOps) (api : Api) (prvKey : Option Nat) (pubKey : Option Address)
    (transport : HttpRequest → TransportResult) (txsHex : List String) (blockNum : Nat) :
    Except FBError Response × List HttpRequest :=
  let method := if api.methodSend != "" then api.methodSend else "eth_sendBundle"
  let param : ParamsSendCall :=
    { txs := txsHex
      params := { stateBlockNum := "latest", blockNum := encodeUint64 blockNum } }
  let out := req ops api prvKey pubKey transport { method, params := .sendCall param }
  (handleBundleResp out.1 blockNum, out.2)

/-- Go `Flashbot.CallBundle`: refuse before any network traffic when the
endpoint does not support simulation; method `eth_callBundle` unless
overridden — the source reads `api.MethodSend` here (`MethodCall` is never
read); state block defaults to "latest" when the argument is zero, and the
nominal inclusion block is the sentinel `100000000000000`. -/
def CallBundle (ops : CryptoOps) (api : Api) (prvKey : Option Nat) (pubKey : Option Address)
    (transport : HttpRequest → TransportResult) (txsHex : List String) (blockNumState : Nat) :
    Except FBError Response × List HttpRequest :=
  if !api.supportsSimulation then
    (.error (.unsupported ("doesn't support simulations relay:" ++ api.url)), [])
  else
    let method := if api.methodSend != "" then api.methodSend else "eth_callBundle"
    let blockDummy : Nat := 100000000000000
    let bns := if blockNumState != 0 then encodeUint64 blockNumState else "latest"
    let param : ParamsSendCall :=
      { txs := txsHex
        params := { stateBlockNum := bns, blockNum := encodeUint64 blockDummy } }
    let out := req ops api prvKey pubKey transport { method, params := .sendCall param }
    (handleBundleResp out.1 blockDummy, out.2)

/-- Go `Flashbot.EstimateGasBundle`: method `eth_estimateGasBundle` unless
overridden by `api.MethodSend`; params carry the `Tx` records as given. -/
def EstimateGasBundle (ops : CryptoOps) (api : Api) (prvKey : Option Nat) (pubKey : Option Address)
    (transport : HttpRequest → TransportResult) (txs : List Tx) (blockNum : Nat) :
    Except FBError Response × List HttpRequest :=
  let method := if api.methodSend != "" then api.methodSend else "eth_estimateGasBundle"
  let param : ParamsGasEstimate :=
    { txs := txs
      params := { stateBlockNum := "latest", blockNum := encodeUint64 blockNum } }
  let out := req ops api prvKey pubKey transport { method, params := .gasEstimate param }
  (handleBundleResp out.1 blockNum, out.2)

/-- Unmarshal only the shared `error` envelope of the stats and
private-transaction response types, keeping the call-specific `result`
payload as raw JSON — the claims under verification touch neither its
shape nor its decode failures. -/
def decodeEnvError (b : RespBody) : Except String (Error × Json) :=
  match b with
  | .malformed _ => .error "invalid character in JSON"
  | .wellFormed _ j =>
    match j with
    | .null => .ok ({}, .null)
    | .obj fields => do
      let e ←
        match jLookup fields "error" with
        | none => .ok ({} : Error)
        | some v => decodeError v
      .ok (e, (jLookup fields "result").getD .null)
    | _ => .error "cannot unmarshal response envelope"

/-- Response handling shared by the stats and private-transaction calls:
propagate request errors, fail on unmarshal failure, fail on a non-zero
error code, else return the envelope. -/
def handleEnvResp (out : Except ReqError RespBody) : Except FBError (Error × Json) :=
  match out with
  | .error e => .error (.reqFailed e)
  | .ok body =>
    match decodeEnvError body with
    | .error _ => .error (.parseFailed (.decodeErr body.raw))
    | .ok (e, res) =>
      if e.code != 0 then .error (.parseFailed (.relayErr e.message))
      else .ok (e, res)

/-- Go `Flashbot.SendPrivateTransaction`: fixed method
`eth_sendPrivateTransaction`; the `fast` argument is accepted but never
written into the params (the source leaves `Preferences` at its zero
value). -/
def SendPrivateTransaction (ops : CryptoOps) (api : Api) (prvKey : Option Nat)
    (pubKey : Option Address) (transport : HttpRequest → TransportResult)
    (txHex : String) (blockNum : Nat) (_fast : Bool) :
    Except FBError (Error × Json) × List HttpRequest :=
  let param : ParamsPrivateTx := { tx := txHex, maxBlockNumber := encodeUint64 blockNum }
  let out := req ops api prvKey pubKey transport
    { method := "eth_sendPrivateTransaction", params := .privateTx param }
  (handleEnvResp out.1, out.2)

/-- Go `Flashbot.CancelPrivateTransaction`: fixed method
`eth_cancelPrivateTransaction` with the hash as param. -/
def CancelPrivateTransaction (ops : CryptoOps) (api : Api) (prvKey : Option Nat)
    (pubKey : Option Address) (transport : HttpRequest → TransportResult)
    (txHash : String) :
    Except FBError (Error × Json) × List HttpRequest :=
  let out := req ops api prvKey pubKey transport
    { method := "eth_cancelPrivateTransaction", params := .cancelPrivateTx { txHash } }
  (handleEnvResp out.1, out.2)

/-- Go `Flashbot.GetBundleStats`: fixed method `flashbots_getBundleStats`. -/
def GetBundleStats (ops : CryptoOps) (api : Api) (prvKey : Option Nat)
    (pubKey : Option Address) (transport : HttpRequest → TransportResult)
    (bundleHash : String) (blockNum : Nat) :
    Except FBError (Error × Json) × List HttpRequest :=
  let param : ParamsBundleStats :=
    { bundleHash, params := { blockNum := encodeUint64 blockNum } }
  let out := req ops api prvKey pubKey transport
    { method := "flashbots_getBundleStats", params := .bundleStats param }
  (handleEnvResp out.1, out.2)

/-- Go `Flashbot.GetUserStats`: fixed method `flashbots_getUserStats`, the
hex-encoded block number as the bare param. -/
def GetUserStats (ops : CryptoOps) (api : Api) (prvKey : Option Nat)
    (pubKey : Option Address) (transport : HttpRequest → TransportResult)
    (blockNum : Nat) :
    Except FBError (Error × Json) × List HttpRequest :=
  let out := req ops api prvKey pubKey transport
    { method := "flashbots_getUserStats", params := .blockNumStr (encodeUint64 blockNum) }
  (handleEnvResp out.1, out.2)

/-- Modelled from the spec: the secondary (bare boolean) success shape of a
`sendBundle` relay response — "some return a bare boolean" inside the usual
JSON-RPC envelope (`result: true`).  This definition follows the spec's
words and exists only to compare the spec's two-shape decode requirement
against the source's `parseResp`. -/
def decodeBoolShapeSpec (j : Json) : Except String Bool :=
  match j with
  | .obj fields =>
    match jLookup fields "result" with
    | some (.bool b) => .ok b
    | _ => .error "no bare boolean result"
  | _ => .error "not a JSON object"

/-- Modelled from the spec: the Bundle Dispatcher's aggregate outcome
(§3/§4.5) — the representative result (the last successful one), the
running `"<relay-url><bundle-hash>, "` label string, and the aggregated
multi-error value, one labeled entry per failing relay.  The dispatcher
itself (`broadcastSend`/`broadcastCall`) is code of this repository that is
not under `src/`. -/
structure AggregateOutcome where
  rep : Option Response := none
  hashLabel : String := ""
  errs : List String := []
deriving Repr

/-- Modelled from the spec: one step of the broadcast loop (§4.5).  A call
is a relay URL paired with that relay's outcome.  On success the
representative result is replaced and the hash label extended; on failure
the error is appended to the aggregated multi-error and the loop
continues. -/
def broadcastStep (acc : AggregateOutcome) (c : String × Except String Response) :
    AggregateOutcome :=
  match c.2 with
  | .error e => { acc with errs := acc.errs ++ [c.1 ++ (": " ++ e)] }
  | .ok r =>
    { acc with
      rep := some r
      hashLabel := acc.hashLabel ++ (c.1 ++ (r.result.bundleHash ++ ", ")) }

/-- Modelled from the spec: the broadcast loop over the relays in
caller-supplied order; one relay's failure never aborts the broadcast. -/
def broadcastGo : AggregateOutcome → List (String × Except String Response) → AggregateOutcome
  | acc, [] => acc
  | acc, c :: rest => broadcastGo (broadcastStep acc c) rest

/-- Modelled from the spec: `broadcastSend`/`broadcastCall` fan-out over a
relay list, starting from the empty aggregate outcome. -/
def broadcast (calls : List (String × Except String Response)) : AggregateOutcome :=
  broadcastGo {} calls

/-- `t` occurs verbatim inside `s`. -/
def strInfix (t s : String) : Prop :=
  ∃ a b, s = a ++ (t ++ b)

theorem strAppendAssoc (a b c : String) : a ++ b ++ c = a ++ (b ++ c) := by
  apply congrArg String.mk
  show (a ++ b ++ c).data = (a ++ (b ++ c)).data
  simp [String.data_append]

theorem strNilAppend (s : String) : "" ++ s = s := by
  apply congrArg String.mk
  show ("" ++ s).data = s.data
  simp [String.data_append]

theorem strAppendNil (s : String) : s ++ "" = s := by
  apply congrArg String.mk
  show (s ++ "").data = s.data
  simp [String.data_append]

theorem strInfix_head (t b : String) : strInfix t (t ++ b) :=
  ⟨"", b, by rw [strNilAppend]⟩

theorem strInfix_refl (t : String) : strInfix t t :=
  ⟨"", "", by rw [strAppendNil, strNilAppend]⟩

theorem strInfix_left (l : String) {t s : String} (h : strInfix t s) :
    strInfix t (l ++ s) := by
  obtain ⟨a, b, hs⟩ := h
  exact ⟨l ++ a, b, by rw [strAppendAssoc, hs]⟩

theorem strInfix_right (r : String) {t s : String} (h : strInfix t s) :
    strInfix t (s ++ r) := by
  obtain ⟨a, b, hs⟩ := h
  exact ⟨a, b ++ r, by rw [hs, strAppendAssoc, strAppendAssoc]⟩

/-- Every request `Flashbot.req` hands to the HTTP client is
`buildHttpReq api msg signedP` for the message being sent, and there is at
most one of them. -/
theorem req_trace_all (ops : CryptoOps) (api : Api) (prvKey : Option Nat)
    (pubKey : Option Address) (transport : HttpRequest → TransportResult)
    (msg : RpcMessage) (P : HttpRequest → Bool)
    (hP : ∀ sp, P (buildHttpReq api msg sp) = true) :
    ((req ops api prvKey pubKey transport msg).2.all P) = true := by
  unfold req
  cases signPayload ops (strBytes (marshalMsg msg)) prvKey pubKey with
  | error e => rfl
  | ok sp =>
    dsimp only
    cases transport (buildHttpReq api msg sp) with
    | networkErr e => simp [hP sp]
    | response resp =>
      by_cases h2 : resp.status / 100 = 2 <;> simp [h2, hP sp]

/-- The trace of `Flashbot.req` never holds more than one request: the
round trip is performed at most once, with no retry. -/
theorem req_trace_len (ops : CryptoOps) (api : Api) (prvKey : Option Nat)
    (pubKey : Option Address) (transport : HttpRequest → TransportResult)
    (msg : RpcMessage) :
    ((req ops api prvKey pubKey transport msg).2.length) ≤ 1 := by
  unfold req
  cases signPayload ops (strBytes (marshalMsg msg)) prvKey pubKey with
  | error e => simp
  | ok sp =>
    dsimp only
    cases transport (buildHttpReq api msg sp) with
    | networkErr e => simp
    | response resp =>
      by_cases h2 : resp.status / 100 = 2 <;> simp [h2]

/-- Concrete crypto primitives for witnesses: identity hashing and a
constant two-byte signature. -/
def opsW : CryptoOps :=
  { keccak256 := id, textHash := id, sign := fun _ _ => .ok [1, 2] }

/-- A transport that always fails at the network layer (the request is
still handed to the client, so it appears in the trace). -/
def transportDown : HttpRequest → TransportResult :=
  fun _ => .networkErr "connection refused"

/-- C5: for every bundle, calling `CallBundle` on a client whose endpoint
has `SupportsSimulation = false` fails with the unsupported-operation error
naming the relay URL, and the HTTP trace is empty: the check precedes all
network I/O. -/
theorem C5_callBundle_unsupported_no_request (ops : CryptoOps) (api : Api)
    (prvKey : Option Nat) (pubKey : Option Address)
    (transport : HttpRequest → TransportResult) (txsHex : List String)
    (blockNumState : Nat) (h : api.supportsSimulation = false) :
    CallBundle ops api prvKey pubKey transport txsHex blockNumState =
      (.error (.unsupported ("doesn't support simulations relay:" ++ api.url)), []) := by
  simp [CallBundle, h]

theorem C5_witness :
    CallBundle opsW { url := "https://mev-relay.ethermine.org" } (some 5)
        (some ⟨"0xA"⟩) transportDown ["0xt1"] 0 =
      (.error (.unsupported
        ("doesn't support simulations relay:" ++ "https://mev-relay.ethermine.org")), []) :=
  C5_callBundle_unsupported_no_request opsW { url := "https://mev-relay.ethermine.org" }
    (some 5) (some ⟨"0xA"⟩) transportDown ["0xt1"] 0 rfl

/-- C7: the `txs` array placed in the request params by `SendBundle`,
`CallBundle` and `EstimateGasBundle` is exactly the input list, in the same
order, for every request those operations issue. -/
theorem C7_bundle_txs_order_preserved (ops : CryptoOps) (api : Api)
    (prvKey : Option Nat) (pubKey : Option Address)
    (transport : HttpRequest → TransportResult) (txsHex : List String)
    (txs : List Tx) (blockNum : Nat) :
    (((SendBundle ops api prvKey pubKey transport txsHex blockNum).2.all
        (fun r => r.msg.params == .sendCall
          { txs := txsHex
            params := { stateBlockNum := "latest", blockNum := encodeUint64 blockNum } })) = true) ∧
    (((CallBundle ops api prvKey pubKey transport txsHex blockNum).2.all
        (fun r => r.msg.params == .sendCall
          { txs := txsHex
            params := { stateBlockNum := if blockNum != 0 then encodeUint64 blockNum else "latest"
                        blockNum := encodeUint64 100000000000000 } })) = true) ∧
    (((EstimateGasBundle ops api prvKey pubKey transport txs blockNum).2.all
        (fun r => r.msg.params == .gasEstimate
          { txs := txs
            params := { stateBlockNum := "latest", blockNum := encodeUint64 blockNum } })) = true) := by
  refine ⟨?_, ?_, ?_⟩
  · exact req_trace_all _ _ _ _ _ _ _ (fun sp => by simp [buildHttpReq])
  · cases hs : api.supportsSimulation
    · simp [CallBundle, hs]
    · rw [CallBundle, hs]
      exact req_trace_all _ _ _ _ _ _ _ (fun sp => by simp [buildHttpReq])
  · exact req_trace_all _ _ _ _ _ _ _ (fun sp => by simp [buildHttpReq])

/-- The endpoint used for the C9 counterexample: distinct call and send
method-name overrides. -/
def apiC9 : Api :=
  { url := "https://relay.example"
    supportsSimulation := true
    methodCall := "custom_callBundle"
    methodSend := "custom_sendBundle" }

/-- C9: the request `CallBundle` issues against an endpoint with distinct
`MethodCall` and `MethodSend` overrides carries the *send* override as its
JSON-RPC method: the source reads `api.MethodSend` inside `CallBundle`, and
`Api.MethodCall` is never read anywhere. -/
theorem C9_callBundle_method_uses_send_override :
    ((CallBundle opsW apiC9 (some 5) (some ⟨"0xA"⟩) transportDown ["0xt1"] 0).2.map
        (fun r => r.msg.method)) = ["custom_sendBundle"] ∧
    apiC9.methodCall = "custom_callBundle" ∧
    apiC9.methodCall ≠ apiC9.methodSend := by
  refine ⟨rfl, rfl, by decide⟩

/-- C10: every HTTP request issued by any relay call — bundle sends and
simulations, gas estimation, private transactions, stats queries — goes
through the HTTP client configured with `InsecureSkipVerify = true`. -/
theorem C10_all_requests_insecure_skip_verify (ops : CryptoOps) (api : Api)
    (prvKey : Option Nat) (pubKey : Option Address)
    (transport : HttpRequest → TransportResult) (txsHex : List String)
    (txs : List Tx) (txHex txHash bundleHash : String) (blockNum : Nat) (fast : Bool) :
    (((SendBundle ops api prvKey pubKey transport txsHex blockNum).2.all
        (fun r => r.tlsInsecureSkipVerify)) = true) ∧
    (((CallBundle ops api prvKey pubKey transport txsHex blockNum).2.all
        (fun r => r.tlsInsecureSkipVerify)) = true) ∧
    (((EstimateGasBundle ops api prvKey pubKey transport txs blockNum).2.all
        (fun r => r.tlsInsecureSkipVerify)) = true) ∧
    (((SendPrivateTransaction ops api prvKey pubKey transport txHex blockNum fast).2.all
        (fun r => r.tlsInsecureSkipVerify)) = true) ∧
    (((CancelPrivateTransaction ops api prvKey pubKey transport txHash).2.all
        (fun r => r.tlsInsecureSkipVerify)) = true) ∧
    (((GetBundleStats ops api prvKey pubKey transport bundleHash blockNum).2.all
        (fun r => r.tlsInsecureSkipVerify)) = true) ∧
    (((GetUserStats ops api prvKey pubKey transport blockNum).2.all
        (fun r => r.tlsInsecureSkipVerify)) = true) := by
  refine ⟨?_, ?_, ?_, ?_, ?_, ?_, ?_⟩
  · exact req_trace_all _ _ _ _ _ _ _ (fun sp => rfl)
  · cases hs : api.supportsSimulation
    · simp [CallBundle, hs]
    · rw [CallBundle, hs]
      exact req_trace_all _ _ _ _ _ _ _ (fun sp => rfl)
  · exact req_trace_all _ _ _ _ _ _ _ (fun sp => rfl)
  · exact req_trace_all _ _ _ _ _ _ _ (fun sp => rfl)
  · exact req_trace_all _ _ _ _ _ _ _ (fun sp => rfl)
  · exact req_trace_all _ _ _ _ _ _ _ (fun sp => rfl)
  · exact req_trace_all _ _ _ _ _ _ _ (fun sp => rfl)

/-- The error code rendered by `%+v` sits verbatim inside the relay-failure
message base. -/
theorem mkRelayErrBase_infix_code (rr : Response) (blockNum : Nat) :
    strInfix (toString rr.error.code) (mkRelayErrBase rr blockNum) := by
  unfold mkRelayErrBase
  exact strInfix_left _ (strInfix_head _ _)

/-- The error message sits verbatim inside the relay-failure message base. -/
theorem mkRelayErrBase_infix_msg (rr : Response) (blockNum : Nat) :
    strInfix rr.error.message (mkRelayErrBase rr blockNum) := by
  unfold mkRelayErrBase
  exact strInfix_left _ (strInfix_left _ (strInfix_left _ (strInfix_head _ _)))

/-- The block number sits verbatim inside the relay-failure message base. -/
theorem mkRelayErrBase_infix_block (rr : Response) (blockNum : Nat) :
    strInfix (toString blockNum) (mkRelayErrBase rr blockNum) := by
  unfold mkRelayErrBase
  exact strInfix_left _ (strInfix_left _ (strInfix_left _ (strInfix_left _
    (strInfix_left _ (strInfix_left _ (strInfix_left _ (strInfix_refl _)))))))

/-- Substrings of the relay-failure message base survive in the full
message, with or without the first-result suffix. -/
theorem mkRelayErrStr_infix (rr : Response) (blockNum : Nat) (t : String)
    (h : strInfix t (mkRelayErrBase rr blockNum)) :
    strInfix t (mkRelayErrStr rr blockNum) := by
  rcases hres : rr.result.results with _ | ⟨a, l⟩ <;> simp only [mkRelayErrStr, hres]
  · exact h
  · exact strInfix_right _ h

/-- Claim C1 counterexample body: a syntactically valid relay response in
the secondary (bare boolean) success shape. -/
def boolShapeBody : Json :=
  .obj [("jsonrpc", .str "2.0"), ("id", .num 1), ("result", .bool true)]

/-- Claim C1 (counterexample): a response body in the secondary (bare
boolean) success shape — which the spec's two-shape codec would accept —
makes `parseResp` return a decode error outright: the decoder never
attempts the secondary shape after the primary (object) shape fails. -/
theorem C1_counterexample_bare_boolean_not_attempted :
    decodeBoolShapeSpec boolShapeBody = .ok true ∧
    parseResp (.wellFormed "\x7b\"result\":true\x7d" boolShapeBody) 42 =
      .error (.decodeErr "\x7b\"result\":true\x7d") :=
  ⟨rfl, rfl⟩

/-- Claim C1 (amended): the decoder attempts only the primary (object)
success shape; whenever that single decode fails — be the body malformed
JSON or well-formed JSON of another shape, including the secondary bare
boolean — it immediately returns a decode error carrying the raw response
body, with no secondary-shape attempt. -/
theorem C1_single_shape_decode_error_carries_raw :
    (∀ (raw : String) (j : Json) (blockNum : Nat) (e : String),
        decodeResponse j = .error e →
        parseResp (.wellFormed raw j) blockNum = .error (.decodeErr raw)) ∧
    (∀ (raw : String) (blockNum : Nat),
        parseResp (.malformed raw) blockNum = .error (.decodeErr raw)) := by
  constructor
  · intro raw j blockNum e hdec
    simp [parseResp, decodeBody, hdec, RespBody.raw]
  · intro raw blockNum
    rfl

/-- Claim C1 witness: concrete decode failures of both kinds, each carrying
its raw body. -/
theorem C1_single_shape_decode_error_witness :
    parseResp (.malformed "not-json") 0 = .error (.decodeErr "not-json") ∧
    parseResp (.wellFormed "true" (.bool true)) 0 = .error (.decodeErr "true") := by
  constructor
  · exact C1_single_shape_decode_error_carries_raw.2 "not-json" 0
  · exact C1_single_shape_decode_error_carries_raw.1 "true" (.bool true) 0
      "cannot unmarshal into Response" rfl

/-- Claim C2: with both key halves present, signing returns
`"<address-hex>:<0x-signature-hex>"` where the signature is produced over
the personal-message hash of the hex encoding of `keccak256(payload)`; with
either half absent, `req` fails with the key-missing error and its HTTP
trace is empty — no request reaches the client. -/
theorem C2_sign_format_and_key_missing_fail_fast :
    (∀ (ops : CryptoOps) (payload : List Nat) (pk : Nat) (pub : Address) (sig : List Nat),
        ops.sign (ops.textHash (strBytes (hexEncode (ops.keccak256 payload)))) pk = .ok sig →
        signPayload ops payload (some pk) (some pub) = .ok (pub.hex ++ (":" ++ hexEncode sig))) ∧
    (∀ (ops : CryptoOps) (api : Api) (transport : HttpRequest → TransportResult)
        (msg : RpcMessage) (prvKey : Option Nat) (pubKey : Option Address),
        prvKey = none ∨ pubKey = none →
        req ops api prvKey pubKey transport msg =
          (.error (.signErr "private or public key is not set"), [])) := by
  constructor
  · intro ops payload pk pub sig h
    simp [signPayload, h]
  · intro ops api transport msg prvKey pubKey h
    rcases h with rfl | rfl
    · rfl
    · cases prvKey <;> rfl

/-- A concrete public address for witnesses. -/
def pubW : Address := ⟨"0xA"⟩

/-- A concrete JSON-RPC message for witnesses. -/
def msgW : RpcMessage := { method := "m", params := .blockNumStr "0x1" }

/-- Claim C2 witness: the signature header at concrete inputs, and the
empty trace when the private key is absent. -/
theorem C2_sign_format_witness :
    signPayload opsW [7] (some 5) (some pubW) = .ok ("0xA" ++ (":" ++ hexEncode [1, 2])) ∧
    req opsW { url := "u" } none (some pubW) transportDown msgW =
      (.error (.signErr "private or public key is not set"), []) := by
  constructor
  · exact C2_sign_format_and_key_missing_fail_fast.1 opsW [7] 5 pubW [1, 2] rfl
  · exact C2_sign_format_and_key_missing_fail_fast.2 opsW { url := "u" } transportDown
      msgW none (some pubW) (Or.inl rfl)

/-- Claim C3: a syntactically valid response whose error object has a
non-zero code is surfaced by `parseResp` as a relay-level failure — the
`relayErr` class, distinct from `decodeErr` — whose message carries the
error code, the error message and the block number verbatim. -/
theorem C3_relay_error_surfaced_with_context (raw : String) (j : Json) (blockNum : Nat)
    (rr : Response) (hdec : decodeResponse j = .ok rr) (hcode : rr.error.code ≠ 0) :
    parseResp (.wellFormed raw j) blockNum = .error (.relayErr (mkRelayErrStr rr blockNum)) ∧
    strInfix (toString rr.error.code) (mkRelayErrStr rr blockNum) ∧
    strInfix rr.error.message (mkRelayErrStr rr blockNum) ∧
    strInfix (toString blockNum) (mkRelayErrStr rr blockNum) := by
  have hb : (rr.error.code != 0) = true := by simpa using hcode
  refine ⟨?_, ?_, ?_, ?_⟩
  · simp [parseResp, decodeBody, hdec, relayFails, hb]
  · exact mkRelayErrStr_infix _ _ _ (mkRelayErrBase_infix_code rr blockNum)
  · exact mkRelayErrStr_infix _ _ _ (mkRelayErrBase_infix_msg rr blockNum)
  · exact mkRelayErrStr_infix _ _ _ (mkRelayErrBase_infix_block rr blockNum)

/-- A concrete relay error body for the C3 witness. -/
def jC3 : Json := .obj [("error", .obj [("code", .num (-32000)), ("message", .str "err")])]

/-- The decoded form of `jC3`. -/
def rrC3 : Response := { error := { code := -32000, message := "err" } }

/-- Claim C3 witness: a concrete response with error code `-32000`. -/
theorem C3_relay_error_witness :
    parseResp (.wellFormed "B" jC3) 7 = .error (.relayErr (mkRelayErrStr rrC3 7)) ∧
    strInfix (toString rrC3.error.code) (mkRelayErrStr rrC3 7) ∧
    strInfix rrC3.error.message (mkRelayErrStr rrC3 7) ∧
    strInfix (toString 7) (mkRelayErrStr rrC3 7) :=
  C3_relay_error_surfaced_with_context "B" jC3 7 rrC3 rfl (by decide)

/-- Claim C4 counterexample body: an otherwise successful envelope whose
only per-transaction result has an empty `Error` but a non-empty `Revert`. -/
def revertBody : Json :=
  .obj [("result", .obj [("Results", .arr [.obj [("Revert", .str "execution reverted")]])])]

/-- The decoded form of `revertBody`. -/
def revertResp : Response :=
  { result := { results := [{ revert := "execution reverted" }] } }

/-- Claim C4 (counterexample): a per-transaction result with a non-empty
`Revert` field (and empty `Error`) does not make the call fail —
`parseResp` returns the decoded success result, because the source only
tests `Results[0].Error`. -/
theorem C4_counterexample_revert_not_consulted :
    revertResp.result.results.map TxResult.revert = ["execution reverted"] ∧
    revertResp.error.code = 0 ∧
    parseResp (.wellFormed "R4" revertBody) 3 = .ok revertResp :=
  ⟨rfl, rfl, rfl⟩

/-- Claim C4 (amended): in an envelope whose error code is zero, the call
is treated as a relay-level failure exactly when the *first*
per-transaction result carries a non-empty `Error` field; `Revert` fields
and results beyond the first are not consulted. -/
theorem C4_first_result_error_only (raw : String) (j : Json) (blockNum : Nat)
    (rr : Response) (hdec : decodeResponse j = .ok rr) (hcode : rr.error.code = 0) :
    ((∃ s, parseResp (.wellFormed raw j) blockNum = .error (.relayErr s)) ↔
      ∃ t rest, rr.result.results = t :: rest ∧ t.error ≠ "") := by
  have hb : (rr.error.code != 0) = false := by simp [hcode]
  have hrel : relayFails rr = true ↔ ∃ t rest, rr.result.results = t :: rest ∧ t.error ≠ "" := by
    rcases hres : rr.result.results with _ | ⟨t, rest⟩
    · simp [relayFails, hb, hres]
    · simp only [relayFails, hb, hres, Bool.false_or]
      constructor
      · intro h
        exact ⟨t, rest, rfl, by simpa using h⟩
      · rintro ⟨t', rest', he, hne⟩
        obtain ⟨rfl, rfl⟩ : t = t' ∧ rest = rest' := by
          constructor <;> [exact (List.cons.injEq .. ▸ he).1; exact (List.cons.injEq .. ▸ he).2]
        simpa using hne
  constructor
  · rintro ⟨s, hs⟩
    by_cases hr : relayFails rr = true
    · exact hrel.mp hr
    · simp [parseResp, decodeBody, hdec, hr] at hs
  · intro hx
    refine ⟨mkRelayErrStr rr blockNum, ?_⟩
    simp [parseResp, decodeBody, hdec, hrel.mpr hx]

/-- A body whose first per-transaction result carries a non-empty error,
for the C4 witness. -/
def errBody : Json :=
  .obj [("result", .obj [("Results", .arr [.obj [("Error", .str "nonce too low")]])])]

/-- The decoded form of `errBody`. -/
def errResp : Response :=
  { result := { results := [{ error := "nonce too low" }] } }

/-- Claim C4 witness: a non-empty first-result error does surface as a
relay failure. -/
theorem C4_first_result_error_witness :
    ∃ s, parseResp (.wellFormed "W4" errBody) 9 = .error (.relayErr s) :=
  (C4_first_result_error_only "W4" errBody 9 errResp rfl rfl).mpr
    ⟨{ error := "nonce too low" }, [], rfl, by decide⟩

/-- Claim C6: once the payload is signed, a response with a status outside
the 2xx range makes `req` fail with the bad-status transport error whose
message carries the response dump (hence the raw body) and the request
dump (hence the marshalled request) verbatim; the trace is exactly one
request — the round trip happens once and is never retried. -/
theorem C6_non2xx_transport_failure_one_roundtrip (ops : CryptoOps) (api : Api)
    (prvKey : Option Nat) (pubKey : Option Address)
    (transport : HttpRequest → TransportResult) (msg : RpcMessage) (signedP : String)
    (resp : HttpResponse)
    (hsign : signPayload ops (strBytes (marshalMsg msg)) prvKey pubKey = .ok signedP)
    (htr : transport (buildHttpReq api msg signedP) = .response resp)
    (hst : resp.status / 100 ≠ 2) :
    req ops api prvKey pubKey transport msg =
      (.error (.badStatus (mkBadStatusStr resp (buildHttpReq api msg signedP))),
       [buildHttpReq api msg signedP]) ∧
    strInfix resp.body.raw (mkBadStatusStr resp (buildHttpReq api msg signedP)) ∧
    strInfix (marshalMsg msg) (mkBadStatusStr resp (buildHttpReq api msg signedP)) := by
  have hb : (resp.status / 100 != 2) = true := by simpa using hst
  refine ⟨?_, ?_, ?_⟩
  · simp [req, hsign, htr, hb]
  · unfold mkBadStatusStr
    apply strInfix_left
    apply strInfix_right
    unfold dumpResponse
    exact strInfix_left _ (strInfix_left _ (strInfix_left _ (strInfix_refl _)))
  · unfold mkBadStatusStr
    apply strInfix_left
    apply strInfix_left
    apply strInfix_left
    unfold dumpRequestOut
    exact strInfix_left _ (strInfix_left _ (strInfix_left _ (strInfix_left _ (strInfix_refl _))))

/-- A transport answering every request with a bodyless 500, for the C6
witness. -/
def transport500 : HttpRequest → TransportResult :=
  fun _ => .response { status := 500, body := .malformed "oops" }

/-- Claim C6 witness: a concrete 500 response. -/
theorem C6_non2xx_witness :
    req opsW { url := "u" } (some 5) (some pubW) transport500 msgW =
      (.error (.badStatus (mkBadStatusStr { status := 500, body := .malformed "oops" }
        (buildHttpReq { url := "u" } msgW ("0xA" ++ (":" ++ hexEncode [1, 2]))))),
       [buildHttpReq { url := "u" } msgW ("0xA" ++ (":" ++ hexEncode [1, 2]))]) ∧
    strInfix (RespBody.raw (.malformed "oops"))
      (mkBadStatusStr { status := 500, body := .malformed "oops" }
        (buildHttpReq { url := "u" } msgW ("0xA" ++ (":" ++ hexEncode [1, 2])))) ∧
    strInfix (marshalMsg msgW)
      (mkBadStatusStr { status := 500, body := .malformed "oops" }
        (buildHttpReq { url := "u" } msgW ("0xA" ++ (":" ++ hexEncode [1, 2])))) :=
  C6_non2xx_transport_failure_one_roundtrip opsW { url := "u" } (some 5) (some pubW)
    transport500 msgW ("0xA" ++ (":" ++ hexEncode [1, 2]))
    { status := 500, body := .malformed "oops" } rfl rfl (by decide)

/-- The aggregated errors of the broadcast loop are exactly the labeled
errors of the failing calls, in relay order, starting from the
accumulator's. -/
theorem broadcastGo_errs (acc : AggregateOutcome)
    (calls : List (String × Except String Response)) :
    (broadcastGo acc calls).errs = acc.errs ++ calls.filterMap (fun c =>
      match c.2 with
      | .error e => some (c.1 ++ (": " ++ e))
      | .ok _ => none) := by
  induction calls generalizing acc with
  | nil => simp [broadcastGo]
  | cons c rest ih =>
    rcases c with ⟨url, out⟩
    cases out with
    | error e => simp [broadcastGo, broadcastStep, ih]
    | ok r => simp [broadcastGo, broadcastStep, ih]

/-- When every call fails, the broadcast loop never replaces the
representative result. -/
theorem broadcastGo_rep_all_fail (acc : AggregateOutcome)
    (calls : List (String × Except String Response))
    (h : ∀ c ∈ calls, ∃ e, c.2 = Except.error e) :
    (broadcastGo acc calls).rep = acc.rep := by
  induction calls generalizing acc with
  | nil => rfl
  | cons c rest ih =>
    obtain ⟨e, he⟩ := h c (List.mem_cons_self _ _)
    rw [broadcastGo, ih _ (fun c' hc' => h c' (List.mem_cons_of_mem _ hc'))]
    simp [broadcastStep, he]

/-- When every call fails, the labeled-error extraction keeps one entry per
call. -/
theorem filterMapErr_length (calls : List (String × Except String Response))
    (h : ∀ c ∈ calls, ∃ e, c.2 = Except.error e) :
    (calls.filterMap (fun c =>
      match c.2 with
      | .error e => some (c.1 ++ (": " ++ e))
      | .ok _ => none)).length = calls.length := by
  induction calls with
  | nil => rfl
  | cons c rest ih =>
    obtain ⟨e, he⟩ := h c (List.mem_cons_self _ _)
    simp [he, ih (fun c' hc' => h c' (List.mem_cons_of_mem _ hc'))]

/-- Claim C8: the broadcast loop appends every failing relay's labeled
error to the aggregated multi-error and keeps going — the aggregate holds
exactly the failures, in relay order — and when every relay fails the
representative result is `none` while the aggregated error has exactly one
entry per relay. -/
theorem C8_broadcast_failure_aggregation (calls : List (String × Except String Response)) :
    ((broadcast calls).errs = calls.filterMap (fun c =>
      match c.2 with
      | .error e => some (c.1 ++ (": " ++ e))
      | .ok _ => none)) ∧
    ((∀ c ∈ calls, ∃ e, c.2 = Except.error e) →
      (broadcast calls).rep = none ∧ (broadcast calls).errs.length = calls.length) := by
  constructor
  · simpa using broadcastGo_errs {} calls
  · intro h
    constructor
    · simpa using broadcastGo_rep_all_fail {} calls h
    · rw [broadcast, broadcastGo_errs]
      simpa using filterMapErr_length calls h

/-- Two relays that both fail, for the C8 witness. -/
def callsW : List (String × Except String Response) :=
  [("r1", .error "boom"), ("r2", .error "bust")]

/-- Claim C8 witness: two failing relays yield no representative result and
one aggregated entry per relay. -/
theorem C8_broadcast_witness :
    ((broadcast callsW).errs = callsW.filterMap (fun c =>
      match c.2 with
      | .error e => some (c.1 ++ (": " ++ e))
      | .ok _ => none)) ∧
    (broadcast callsW).rep = none ∧ (broadcast callsW).errs.length = callsW.length := by
  have h : ∀ c ∈ callsW, ∃ e, c.2 = Except.error e := by
    intro c hc
    simp only [callsW, List.mem_cons, List.mem_singleton] at hc
    rcases hc with rfl | rfl | hc
    · exact ⟨"boom", rfl⟩
    · exact ⟨"bust", rfl⟩
    · exact absurd hc (List.not_mem_nil c)
  exact ⟨(C8_broadcast_failure_aggregation callsW).1,
    ((C8_broadcast_failure_aggregation callsW).2 h).1,
    ((C8_broadcast_failure_aggregation callsW).2 h).2⟩

end Flashbot
